import Mathlib

/-!
# Image gallery widget (`script.js`): shallow embedding and verified properties

The widget keeps one mutable `state` object (items, filtered, currentIndex,
autoplay, autoplayTimer, size) and reads/writes a handful of DOM nodes (the
lightbox, its image and caption, the cards, the autoplay label).  The embedding
below puts both into one record `State`; every function of the script becomes a
function on `State`.  A function that can throw a `TypeError` returns an
`Outcome`: the state as it stands when the function returns or throws, and a
flag telling which of the two happened.

JavaScript strings are modelled by `String` (sequences of code points).
`String.prototype.toLowerCase` is a built-in of the host, not code of the
script; it is taken as a parameter `toLowerCase : String → String`.
-/

namespace ImageGallery

/-! ## Strings -/

/-- White space and line terminators stripped by `String.prototype.trim`. -/
def isTrimChar (c : Char) : Bool :=
  c.toNat = 0x09 || c.toNat = 0x0A || c.toNat = 0x0B || c.toNat = 0x0C ||
  c.toNat = 0x0D || c.toNat = 0x20 || c.toNat = 0xA0 || c.toNat = 0x1680 ||
  (0x2000 ≤ c.toNat && c.toNat ≤ 0x200A) || c.toNat = 0x2028 ||
  c.toNat = 0x2029 || c.toNat = 0x202F || c.toNat = 0x205F ||
  c.toNat = 0x3000 || c.toNat = 0xFEFF

/-- The method `s.trim()`: strips white space from both ends. -/
def trim (s : String) : String :=
  ⟨((s.data.dropWhile isTrimChar).reverse.dropWhile isTrimChar).reverse⟩

/-- Code-point level `s.includes(q)`: `q` starts at some position of `s`. -/
def includesChars : List Char → List Char → Bool
  | [], q => q.isEmpty
  | c :: cs, q => q.isPrefixOf (c :: cs) || includesChars cs q

/-- The method `s.includes(q)`. -/
def includes (s q : String) : Bool :=
  includesChars s.data q.data

/-- Code-point level `s.split(',')`; the result always has at least one piece. -/
def splitCommaChars : List Char → List (List Char)
  | [] => [[]]
  | c :: cs =>
    if c = ',' then [] :: splitCommaChars cs
    else
      match splitCommaChars cs with
      | [] => [[c]]
      | piece :: rest => (c :: piece) :: rest

/-- The method `s.split(',')`. -/
def splitComma (s : String) : List String :=
  (splitCommaChars s.data).map String.mk

/-- The method `tags.join(' ')`. -/
def joinSpace : List String → String
  | [] => ""
  | [t] => t
  | t :: u :: rest => ⟨t.data ++ ' ' :: (joinSpace (u :: rest)).data⟩

/-- The expression `v || ''` for `v` a string or `null`/`undefined`. -/
def orEmpty : Option String → String
  | none => ""
  | some v => if v = "" then "" else v

/-- Lower-casing of the ASCII letters, the restriction of `toLowerCase` to
ASCII text; used to run the model on concrete inputs. -/
def asciiLower (s : String) : String :=
  ⟨s.data.map fun c => if 65 ≤ c.toNat ∧ c.toNat ≤ 90 then Char.ofNat (c.toNat + 32) else c⟩

/-! ## Data model -/

/-- A gallery `<img>` as `indexItemsFromDOM` reads it: the attributes `src`,
`alt` and `data-tags`, each possibly absent. -/
structure Img where
  src : Option String
  alt : Option String
  dataTags : Option String
deriving DecidableEq, Repr

/-- An entry of `state.items`.  `el` is the handle of the image element (its
position among `.gallery img` in document order).  Each entry is built once,
with its own `i` and `el`, so that two entries are the same object exactly
when they are equal as records: `===` on entries is modelled by `=`. -/
structure Item where
  i : Nat
  el : Nat
  src : Option String
  alt : String
  tags : List String
deriving DecidableEq, Repr

/-- A handle returned by `setInterval`: a positive integer. -/
structure TimerId where
  val : Nat
  pos : 0 < val
deriving DecidableEq

/-- The `state` object of the script together with the parts of the page it
reads and writes. -/
structure State where
  /-- The images matched by `.gallery img`, in document order. -/
  thumbs : List Img
  /-- The field `state.items`. -/
  items : List Item
  /-- The field `state.filtered`. -/
  filtered : List Item
  /-- The field `state.currentIndex`. -/
  currentIndex : Nat
  /-- The field `state.autoplay`. -/
  autoplay : Bool
  /-- The field `state.autoplayTimer`; `none` is `null`. -/
  autoplayTimer : Option TimerId
  /-- The field `state.size`. -/
  size : Int
  /-- Whether `#lightbox` carries the attribute `open`. -/
  lightboxOpen : Bool
  /-- The value last assigned to `lbImg.src`. -/
  lbImgSrc : Option String
  /-- The value last assigned to `lbImg.alt`. -/
  lbImgAlt : String
  /-- The text content of `#caption`. -/
  captionText : String
  /-- The text of `#autoplay-label`; `none` when the page has no such node. -/
  autoplayLabel : Option String
  /-- For each entry of `items`, whether its card carries the class `hidden`. -/
  hidden : List Bool
  /-- The minimum column width inlined on `#gallery`; `none` before `applySize`. -/
  gridMin : Option Int
  /-- The interval timers that are live (created and not yet cleared). -/
  liveTimers : List TimerId
  /-- The number of timers created so far. -/
  timersCreated : Nat
deriving DecidableEq

/-- What a call leaves behind: the state, and whether it ended by throwing. -/
structure Outcome where
  state : State
  threw : Bool
deriving DecidableEq

/-- The state when the script has been loaded on a page with images `thumbs`
and no event has been handled: the literal `state` object, a closed lightbox,
no card hidden, no timer. -/
def initialState (thumbs : List Img) : State where
  thumbs := thumbs
  items := []
  filtered := []
  currentIndex := 0
  autoplay := false
  autoplayTimer := none
  size := 220
  lightboxOpen := false
  lbImgSrc := none
  lbImgAlt := ""
  captionText := ""
  autoplayLabel := some "Slideshow: Off"
  hidden := thumbs.map fun _ => false
  gridMin := none
  liveTimers := []
  timersCreated := 0

/-! ## Indexing -/

/-- The tag list of an image:
`(img.dataset.tags || '').split(',').map(s => s.trim()).filter(Boolean)`. -/
def parseTags (dataTags : Option String) : List String :=
  ((splitComma (orEmpty dataTags)).map trim).filter fun t => t ≠ ""

/-- The callback of `thumbs.map((img, i) => ...)`. -/
def mkItem (i : Nat) (img : Img) : Item where
  i := i
  el := i
  src := img.src
  alt := orEmpty img.alt
  tags := parseTags img.dataTags

/-- The list `thumbs.map((img, i) => ...)`, counting from `k`. -/
def mkItemsFrom : Nat → List Img → List Item
  | _, [] => []
  | k, img :: rest => mkItem k img :: mkItemsFrom (k + 1) rest

/-- The function `indexItemsFromDOM`. -/
def indexItemsFromDOM (s : State) : State :=
  let items := mkItemsFrom 0 s.thumbs
  { s with items := items, filtered := items }

/-! ## Filter and search -/

/-- The predicate passed to `state.items.filter` in the search handler. -/
def matchesQuery (toLowerCase : String → String) (q : String) (x : Item) : Bool :=
  includes (toLowerCase x.alt) q || includes (toLowerCase (joinSpace x.tags)) q

/-- The function `renderFilter`: a card is hidden unless the element of its
image is among the elements of `state.filtered`. -/
def renderFilter (s : State) : State :=
  { s with hidden := s.items.map fun x => !(s.filtered.map Item.el).contains x.el }

/-- The `input` handler of the search box, for the box holding `value`. -/
def applyQuery (toLowerCase : String → String) (value : String) (s : State) : State :=
  let q := trim (toLowerCase value)
  renderFilter { s with filtered := s.items.filter (matchesQuery toLowerCase q) }

/-! ## Size control -/

/-- The function `applySize`. -/
def applySize (px : Int) (s : State) : State :=
  { s with size := px, gridMin := some px }

/-! ## Autoplay timers -/

/-- The call `clearInterval(h)`. -/
def clearInterval (h : TimerId) (s : State) : State :=
  { s with liveTimers := s.liveTimers.filter fun t => t ≠ h }

/-- The function `stopAutoplay`. -/
def stopAutoplay (s : State) : State :=
  let s1 := { s with autoplay := false,
                     autoplayLabel := s.autoplayLabel.map fun _ => "Slideshow: Off" }
  let s2 :=
    match s1.autoplayTimer with
    | some h => if h.val ≠ 0 then clearInterval h s1 else s1
    | none => s1
  { s2 with autoplayTimer := none }

/-- The function `startAutoplay`; `setInterval` hands out the next handle. -/
def startAutoplay (s : State) : State :=
  let s1 := { s with autoplay := true,
                     autoplayLabel := s.autoplayLabel.map fun _ => "Slideshow: On" }
  let s2 := stopAutoplay s1
  let h : TimerId := ⟨s2.timersCreated + 1, Nat.succ_pos _⟩
  { s2 with autoplayTimer := some h,
            liveTimers := s2.liveTimers ++ [h],
            timersCreated := s2.timersCreated + 1 }

/-! ## Lightbox -/

/-- The function `openLightbox`.  `state.currentIndex` is assigned first; when
`state.items[i]` is `undefined`, reading `item.src` throws. -/
def openLightbox (i : Nat) (s : State) : Outcome :=
  let s1 := { s with currentIndex := i }
  match s1.items[i]? with
  | none => ⟨s1, true⟩
  | some item =>
    ⟨{ s1 with lbImgSrc := item.src,
               lbImgAlt := item.alt,
               captionText := if item.alt = "" then "Photo" else item.alt,
               lightboxOpen := true }, false⟩

/-- The function `closeLightbox`. -/
def closeLightbox (s : State) : State :=
  stopAutoplay { s with lightboxOpen := false }

/-- The call `arr.findIndex(x => x === currentItem)`: the first position
holding `currentItem`, or `-1`; nothing is `===` to `undefined`. -/
def findIndex (arr : List Item) (currentItem : Option Item) : Int :=
  match currentItem with
  | none => -1
  | some c =>
    if c ∈ arr then (arr.indexOf c : Int) else -1

/-- The array `state.filtered.length ? state.filtered : state.items` of `move`. -/
def operatingSet (s : State) : List Item :=
  if s.filtered.length ≠ 0 then s.filtered else s.items

/-- The function `move`.  The operator `%` is the truncating remainder. -/
def move (delta : Int) (s : State) : Outcome :=
  let arr := operatingSet s
  if arr.length = 0 then ⟨s, false⟩
  else
    let currentItem := s.items[s.currentIndex]?
    let idxInFiltered := findIndex arr currentItem
    let idxInFiltered := if idxInFiltered = -1 then 0 else idxInFiltered
    let nextIndex := Int.tmod (idxInFiltered + delta + arr.length) arr.length
    if nextIndex < 0 then ⟨s, true⟩
    else
      match arr[nextIndex.toNat]? with
      | none => ⟨s, true⟩
      | some entry => openLightbox entry.i s

/-- The function `next`. -/
def next (s : State) : Outcome := move 1 s

/-- The function `prev`. -/
def prev (s : State) : Outcome := move (-1) s

/-- The `keydown` listener installed by `bindGlobalKeys`, for `e.key = key`. -/
def onKeydown (key : String) (s : State) : Outcome :=
  if !s.lightboxOpen then ⟨s, false⟩
  else
    let s1 := if key = "Escape" then closeLightbox s else s
    let o2 := if key = "ArrowRight" then next s1 else ⟨s1, false⟩
    if o2.threw then o2
    else if key = "ArrowLeft" then prev o2.state else o2

/-- The `change` listener of the autoplay checkbox. -/
def onAutoplayChange (checked : Bool) (s : State) : State :=
  if checked then startAutoplay s else stopAutoplay s

/-- The `DOMContentLoaded` listener, for a size control holding `px` and an
autoplay checkbox in state `checked`. -/
def onDOMContentLoaded (px : Int) (checked : Bool) (s : State) : State :=
  let s1 := applySize px (indexItemsFromDOM s)
  if checked then startAutoplay s1 else s1

/-! ## Concrete pages used in examples -/

/-- The page of the worked example: Desert, Ocean, Desert Night. -/
def desertPage : List Img :=
  [⟨some "desert.jpg", some "Desert", some "sand,sunset"⟩,
   ⟨some "ocean.jpg", some "Ocean", some "water"⟩,
   ⟨some "night.jpg", some "Desert Night", some "sand,stars"⟩]

/-- The state of `desertPage` once indexed. -/
def desertIndexed : State :=
  indexItemsFromDOM (initialState desertPage)

/-- The state of `desertPage` after the query "desert". -/
def desertFiltered : State :=
  applyQuery asciiLower "desert" desertIndexed

/-- The Desert page with the query "desert" applied and item 0 opened. -/
def desertOpened : State :=
  (openLightbox 0 desertFiltered).state

/-- The Desert page with item 1 (Ocean) opened and then the query "desert"
typed while the lightbox is open: the current item is not in the filtered view. -/
def desertOceanOpen : State :=
  applyQuery asciiLower "desert" (openLightbox 1 desertIndexed).state

/-- The Desert page with the slideshow switched on while the lightbox is
closed. -/
def desertAutoplay : State :=
  startAutoplay desertIndexed

/-- A page without images, once indexed. -/
def emptyIndexed : State :=
  indexItemsFromDOM (initialState [])

/-! ## Specification-side notions -/

/-- The string `q` occurs in `s` as a substring (a contiguous run of `s`). -/
def IsSubstring (q s : String) : Prop :=
  ∃ before after : List Char, s.data = before ++ q.data ++ after

/-- The match condition in the words of the specification: the lowercased
caption contains the query, or the lowercased space-joined tags do. -/
def SpecMatches (toLowerCase : String → String) (q : String) (x : Item) : Prop :=
  IsSubstring q (toLowerCase x.alt) ∨
    IsSubstring q (toLowerCase (String.intercalate " " x.tags))

/-- The item `state.items[state.currentIndex]`, if there is one. -/
def currentItem (s : State) : Option Item :=
  s.items[s.currentIndex]?

/-- The position of the current item in the operating set, when the current
item is a member of it. -/
def positionInSet (s : State) : Option Nat :=
  match currentItem s with
  | none => none
  | some c => if c ∈ operatingSet s then some ((operatingSet s).indexOf c) else none

/-- The position `(p + delta + n) mod n` of the specification, with the
mathematical `mod`, as a natural number. -/
def wrapPosition (p : Nat) (delta : Int) (n : Nat) : Nat :=
  (((p : Int) + delta + n) % n).toNat

/-- The states of the widget: the state after `indexItemsFromDOM` on a page
with images `thumbs`, and every state reached from it by calls of the search
handler, `applySize`, `openLightbox` on a valid index, `closeLightbox`,
`move(+1)`, `move(-1)`, `startAutoplay` and `stopAutoplay`. -/
inductive Reachable (toLowerCase : String → String) (thumbs : List Img) : State → Prop
  | scan : Reachable toLowerCase thumbs (indexItemsFromDOM (initialState thumbs))
  | applyQuery {s : State} (value : String) :
      Reachable toLowerCase thumbs s →
      Reachable toLowerCase thumbs (applyQuery toLowerCase value s)
  | applySize {s : State} (px : Int) :
      Reachable toLowerCase thumbs s → Reachable toLowerCase thumbs (applySize px s)
  | openLightbox {s : State} (i : Nat) :
      Reachable toLowerCase thumbs s → i < s.items.length →
      Reachable toLowerCase thumbs (openLightbox i s).state
  | closeLightbox {s : State} :
      Reachable toLowerCase thumbs s → Reachable toLowerCase thumbs (closeLightbox s)
  | move {s : State} (delta : Int) :
      Reachable toLowerCase thumbs s → delta = 1 ∨ delta = -1 →
      Reachable toLowerCase thumbs (move delta s).state
  | startAutoplay {s : State} :
      Reachable toLowerCase thumbs s → Reachable toLowerCase thumbs (startAutoplay s)
  | stopAutoplay {s : State} :
      Reachable toLowerCase thumbs s → Reachable toLowerCase thumbs (stopAutoplay s)

/-- The structural invariant of the widget state: every item sits at the
position its field `i` names, the filtered view is a subsequence of the item
index, the current index is in range unless there is no item at all, one card
flag per item, and the live timers are exactly the one held, if any. -/
structure WellFormed (s : State) : Prop where
  indexed : ∀ (k : Nat) (x : Item), s.items[k]? = some x → x.i = k
  filteredSub : s.filtered.Sublist s.items
  current : s.currentIndex < s.items.length ∨ (s.items = [] ∧ s.currentIndex = 0)
  cards : s.hidden.length = s.items.length
  timers : s.liveTimers = s.autoplayTimer.toList

/-! ## Lemmas on strings -/

theorem includesChars_nil (s : List Char) : includesChars s [] = true := by
  cases s <;> simp [includesChars]

theorem includesChars_iff (s q : List Char) :
    includesChars s q = true ↔ ∃ before after, s = before ++ q ++ after := by
  induction s with
  | nil =>
    simp only [includesChars, List.isEmpty_eq_true]
    constructor
    · intro h
      exact ⟨[], [], by simp [h]⟩
    · rintro ⟨before, after, h⟩
      have h1 := congrArg List.length h
      simp at h1
      exact List.length_eq_zero.mp (by omega)
  | cons c cs ih =>
    simp only [includesChars, Bool.or_eq_true, List.isPrefixOf_iff_prefix, ih]
    constructor
    · rintro (⟨after, h⟩ | ⟨before, after, h⟩)
      · exact ⟨[], after, by simp [h]⟩
      · exact ⟨c :: before, after, by simp [h]⟩
    · rintro ⟨before, after, h⟩
      cases before with
      | nil => exact Or.inl ⟨after, by simpa using h.symm⟩
      | cons b before =>
        simp only [List.cons_append, List.cons.injEq] at h
        exact Or.inr ⟨before, after, h.2⟩

theorem includes_iff (s q : String) : includes s q = true ↔ IsSubstring q s :=
  includesChars_iff s.data q.data

theorem intercalate_go_data (acc : String) (ts : List String) :
    (String.intercalate.go acc " " ts).data =
      acc.data ++ (ts.map fun t => ' ' :: t.data).flatten := by
  induction ts generalizing acc with
  | nil => simp [String.intercalate.go]
  | cons t ts ih =>
    simp [String.intercalate.go, ih, String.data_append]

theorem joinSpace_data (t : String) (ts : List String) :
    (joinSpace (t :: ts)).data = t.data ++ (ts.map fun u => ' ' :: u.data).flatten := by
  induction ts generalizing t with
  | nil => simp [joinSpace]
  | cons u ts ih => simp [joinSpace, ih]

theorem joinSpace_eq_intercalate (tags : List String) :
    joinSpace tags = String.intercalate " " tags := by
  cases tags with
  | nil => rfl
  | cons t ts =>
    apply String.ext
    rw [joinSpace_data]
    simp [String.intercalate, intercalate_go_data]

theorem matchesQuery_iff (toLowerCase : String → String) (q : String) (x : Item) :
    matchesQuery toLowerCase q x = true ↔ SpecMatches toLowerCase q x := by
  simp [matchesQuery, SpecMatches, includes_iff, joinSpace_eq_intercalate]

theorem trim_empty : trim "" = "" := by decide

theorem matchesQuery_empty (toLowerCase : String → String) (x : Item) :
    matchesQuery toLowerCase "" x = true := by
  simp [matchesQuery, includes, includesChars_nil]

/-! ## Frame lemmas -/

theorem stopAutoplay_eq (s : State) :
    stopAutoplay s =
      { s with autoplay := false,
               autoplayLabel := s.autoplayLabel.map fun _ => "Slideshow: Off",
               liveTimers :=
                 match s.autoplayTimer with
                 | some h => s.liveTimers.filter fun t => t ≠ h
                 | none => s.liveTimers,
               autoplayTimer := none } := by
  unfold stopAutoplay
  cases hh : s.autoplayTimer with
  | none => simp [hh]
  | some h =>
    have := h.pos
    simp [hh, clearInterval, Nat.pos_iff_ne_zero.mp h.pos]

theorem stopAutoplay_autoplayTimer (s : State) : (stopAutoplay s).autoplayTimer = none := by
  rw [stopAutoplay_eq]

theorem stopAutoplay_autoplay (s : State) : (stopAutoplay s).autoplay = false := by
  rw [stopAutoplay_eq]

theorem openLightbox_valid (i : Nat) (s : State) (x : Item) (h : s.items[i]? = some x) :
    openLightbox i s =
      ⟨{ s with currentIndex := i, lbImgSrc := x.src, lbImgAlt := x.alt,
                captionText := if x.alt = "" then "Photo" else x.alt,
                lightboxOpen := true }, false⟩ := by
  simp [openLightbox, h]

theorem openLightbox_currentIndex (i : Nat) (s : State) :
    (openLightbox i s).state.currentIndex = i := by
  cases h : s.items[i]? <;> simp [openLightbox, h]

theorem openLightbox_items (i : Nat) (s : State) :
    (openLightbox i s).state.items = s.items := by
  cases h : s.items[i]? <;> simp [openLightbox, h]

theorem openLightbox_filtered (i : Nat) (s : State) :
    (openLightbox i s).state.filtered = s.filtered := by
  cases h : s.items[i]? <;> simp [openLightbox, h]

theorem openLightbox_operatingSet (i : Nat) (s : State) :
    operatingSet (openLightbox i s).state = operatingSet s := by
  simp [operatingSet, openLightbox_items, openLightbox_filtered]

theorem mkItemsFrom_length (k : Nat) (imgs : List Img) :
    (mkItemsFrom k imgs).length = imgs.length := by
  induction imgs generalizing k with
  | nil => rfl
  | cons img rest ih => simp [mkItemsFrom, ih]

theorem mkItemsFrom_indexed (k : Nat) (imgs : List Img) (j : Nat) (x : Item)
    (h : (mkItemsFrom k imgs)[j]? = some x) : x.i = k + j := by
  induction imgs generalizing k j with
  | nil => simp [mkItemsFrom] at h
  | cons img rest ih =>
    cases j with
    | zero =>
      simp [mkItemsFrom] at h
      subst h
      rfl
    | succ j =>
      simp only [mkItemsFrom, List.getElem?_cons_succ] at h
      have := ih (k + 1) j h
      omega

/-! ## Consequences of the invariant -/

theorem WellFormed.items_nodup {s : State} (wf : WellFormed s) : s.items.Nodup := by
  rw [List.nodup_iff_injective_get]
  intro a b hab
  have ha : s.items[a.1]? = some (s.items.get a) := by
    simp [List.getElem?_eq_getElem a.2]
  have hb : s.items[b.1]? = some (s.items.get b) := by
    simp [List.getElem?_eq_getElem b.2]
  have h1 := wf.indexed _ _ ha
  have h2 := wf.indexed _ _ hb
  rw [hab] at h1
  exact Fin.ext (h1.symm.trans h2)

theorem WellFormed.operatingSet_sub {s : State} (wf : WellFormed s) :
    (operatingSet s).Sublist s.items := by
  unfold operatingSet
  split
  · exact wf.filteredSub
  · exact List.Sublist.refl _

theorem WellFormed.operatingSet_nodup {s : State} (wf : WellFormed s) :
    (operatingSet s).Nodup :=
  wf.operatingSet_sub.nodup wf.items_nodup

theorem WellFormed.items_at_i {s : State} (wf : WellFormed s) {x : Item}
    (hx : x ∈ s.items) : s.items[x.i]? = some x := by
  obtain ⟨k, hk, rfl⟩ := List.getElem_of_mem hx
  have h : s.items[k]? = some s.items[k] := List.getElem?_eq_getElem hk
  rw [wf.indexed k _ h]
  exact h

theorem WellFormed.entry_at_i {s : State} (wf : WellFormed s) {x : Item}
    (hx : x ∈ operatingSet s) : s.items[x.i]? = some x :=
  wf.items_at_i (wf.operatingSet_sub.subset hx)

/-! ## The navigation step -/

/-- The position the specification speaks of: the position of the current
item in the operating set, or `0` when it is not a member. -/
theorem findIndex_adjusted (s : State) :
    (if findIndex (operatingSet s) s.items[s.currentIndex]? = -1 then 0
      else findIndex (operatingSet s) s.items[s.currentIndex]?) =
      (((positionInSet s).getD 0 : Nat) : Int) := by
  unfold findIndex positionInSet currentItem
  cases s.items[s.currentIndex]? with
  | none => simp
  | some c =>
    by_cases hc : c ∈ operatingSet s
    · have h : ((List.indexOf c (operatingSet s) : Nat) : Int) ≠ -1 := by omega
      simp [hc, h]
    · simp [hc]

theorem wrapPosition_lt (p : Nat) (delta : Int) (n : Nat) (hn : 0 < n) :
    wrapPosition p delta n < n := by
  unfold wrapPosition
  have h1 : (0 : Int) < n := by exact_mod_cast hn
  have h2 := Int.emod_lt_of_pos ((p : Int) + delta + n) h1
  have h3 := Int.emod_nonneg ((p : Int) + delta + n) (ne_of_gt h1)
  omega

theorem move_eq_open (s : State) (delta : Int) (hd : delta = 1 ∨ delta = -1)
    (hn : 0 < (operatingSet s).length) :
    ∃ entry,
      (operatingSet s)[wrapPosition ((positionInSet s).getD 0) delta
        (operatingSet s).length]? = some entry ∧
      move delta s = openLightbox entry.i s := by
  have hlt := wrapPosition_lt ((positionInSet s).getD 0) delta _ hn
  refine ⟨(operatingSet s)[wrapPosition ((positionInSet s).getD 0) delta
    (operatingSet s).length], List.getElem?_eq_getElem hlt, ?_⟩
  have h1 : (0 : Int) < (operatingSet s).length := by exact_mod_cast hn
  have hnn : (0 : Int) ≤ (((positionInSet s).getD 0 : Nat) : Int) + delta +
      (operatingSet s).length := by
    rcases hd with rfl | rfl <;> omega
  have htm : Int.tmod ((((positionInSet s).getD 0 : Nat) : Int) + delta +
      (operatingSet s).length) (operatingSet s).length =
      ((((positionInSet s).getD 0 : Nat) : Int) + delta + (operatingSet s).length) %
        (operatingSet s).length :=
    Int.tmod_eq_emod hnn (le_of_lt h1)
  have h3 := Int.emod_nonneg ((((positionInSet s).getD 0 : Nat) : Int) + delta +
      (operatingSet s).length) (ne_of_gt h1)
  unfold move
  simp only [findIndex_adjusted, htm]
  rw [if_neg (by omega), if_neg (by omega)]
  simp only [wrapPosition] at hlt ⊢
  rw [List.getElem?_eq_getElem hlt]

theorem move_empty (s : State) (delta : Int) (hn : (operatingSet s).length = 0) :
    move delta s = ⟨s, false⟩ := by
  simp [move, hn]

/-! ## The invariant holds in every reachable state -/

theorem wellFormed_scan (thumbs : List Img) :
    WellFormed (indexItemsFromDOM (initialState thumbs)) where
  indexed k x h := by
    have := mkItemsFrom_indexed 0 thumbs k x h
    omega
  filteredSub := List.Sublist.refl _
  current := by
    cases thumbs with
    | nil => exact Or.inr ⟨rfl, rfl⟩
    | cons img rest => exact Or.inl (by simp [indexItemsFromDOM, initialState, mkItemsFrom])
  cards := by simp [indexItemsFromDOM, initialState, mkItemsFrom_length]
  timers := rfl

theorem wellFormed_applyQuery (toLowerCase : String → String) (value : String)
    {s : State} (wf : WellFormed s) : WellFormed (applyQuery toLowerCase value s) where
  indexed := wf.indexed
  filteredSub := List.filter_sublist _
  current := wf.current
  cards := by simp [applyQuery, renderFilter]
  timers := wf.timers

theorem wellFormed_applySize (px : Int) {s : State} (wf : WellFormed s) :
    WellFormed (applySize px s) :=
  ⟨wf.indexed, wf.filteredSub, wf.current, wf.cards, wf.timers⟩

theorem wellFormed_openLightbox (i : Nat) {s : State} (wf : WellFormed s)
    (hi : i < s.items.length) : WellFormed (openLightbox i s).state := by
  rw [openLightbox_valid i s _ (List.getElem?_eq_getElem hi)]
  exact ⟨wf.indexed, wf.filteredSub, Or.inl hi, wf.cards, wf.timers⟩

theorem wellFormed_stopAutoplay {s : State} (wf : WellFormed s) :
    WellFormed (stopAutoplay s) := by
  rw [stopAutoplay_eq]
  refine ⟨wf.indexed, wf.filteredSub, wf.current, wf.cards, ?_⟩
  have ht := wf.timers
  cases hh : s.autoplayTimer with
  | none => simpa [hh] using ht
  | some h => simp [hh, ht]

theorem wellFormed_closeLightbox {s : State} (wf : WellFormed s) :
    WellFormed (closeLightbox s) :=
  wellFormed_stopAutoplay
    (s := { s with lightboxOpen := false })
    ⟨wf.indexed, wf.filteredSub, wf.current, wf.cards, wf.timers⟩

theorem wellFormed_startAutoplay {s : State} (wf : WellFormed s) :
    WellFormed (startAutoplay s) := by
  have w1 : WellFormed (stopAutoplay { s with
      autoplay := true,
      autoplayLabel := s.autoplayLabel.map fun _ => "Slideshow: On" }) :=
    wellFormed_stopAutoplay ⟨wf.indexed, wf.filteredSub, wf.current, wf.cards, wf.timers⟩
  refine ⟨w1.indexed, w1.filteredSub, w1.current, w1.cards, ?_⟩
  have ht := w1.timers
  rw [stopAutoplay_autoplayTimer] at ht
  show (stopAutoplay _).liveTimers ++ [_] = _
  rw [ht]
  rfl

theorem wellFormed_move (delta : Int) (hd : delta = 1 ∨ delta = -1) {s : State}
    (wf : WellFormed s) : WellFormed (move delta s).state := by
  by_cases hn : (operatingSet s).length = 0
  · rw [move_empty s delta hn]
    exact wf
  · obtain ⟨entry, he, hm⟩ := move_eq_open s delta hd (Nat.pos_of_ne_zero hn)
    rw [hm]
    have hmem : entry ∈ operatingSet s := List.getElem?_mem he
    have hat := wf.entry_at_i hmem
    exact wellFormed_openLightbox entry.i wf
      (by
        by_contra hge
        rw [List.getElem?_eq_none (Nat.le_of_not_lt hge)] at hat
        exact Option.noConfusion hat)

theorem Reachable.wellFormed {toLowerCase : String → String} {thumbs : List Img}
    {s : State} (hr : Reachable toLowerCase thumbs s) : WellFormed s := by
  induction hr with
  | scan => exact wellFormed_scan thumbs
  | applyQuery value _ ih => exact wellFormed_applyQuery toLowerCase value ih
  | applySize px _ ih => exact wellFormed_applySize px ih
  | openLightbox i _ hi ih => exact wellFormed_openLightbox i ih hi
  | closeLightbox _ ih => exact wellFormed_closeLightbox ih
  | move delta _ hd ih => exact wellFormed_move delta hd ih
  | startAutoplay _ ih => exact wellFormed_startAutoplay ih
  | stopAutoplay _ ih => exact wellFormed_stopAutoplay ih

/-! ## Arithmetic of the wrap-around -/

theorem wrapPosition_succ (p n : Nat) (h : p + 1 < n) : wrapPosition p 1 n = p + 1 := by
  unfold wrapPosition
  have h1 : ((p : Int) + 1 + n) % n = p + 1 := by
    rw [Int.add_emod_self]
    exact Int.emod_eq_of_lt (by omega) (by omega)
  rw [h1]
  omega

theorem wrapPosition_last (n : Nat) (h : 0 < n) : wrapPosition (n - 1) 1 n = 0 := by
  unfold wrapPosition
  have h0 : (((n - 1 : Nat) : Int) + 1 + n) = n + n := by omega
  have h1 : (((n - 1 : Nat) : Int) + 1 + n) % n = 0 := by
    rw [h0, Int.add_emod_self, Int.emod_self]
  rw [h1]
  rfl

theorem wrapPosition_pred (p n : Nat) (h0 : 0 < p) (h : p < n) :
    wrapPosition p (-1) n = p - 1 := by
  unfold wrapPosition
  have h1 : ((p : Int) + -1 + n) % n = p - 1 := by
    rw [Int.add_emod_self]
    exact Int.emod_eq_of_lt (by omega) (by omega)
  rw [h1]
  omega

theorem wrapPosition_first (n : Nat) (h : 0 < n) : wrapPosition 0 (-1) n = n - 1 := by
  unfold wrapPosition
  have h0 : (((0 : Nat) : Int) + -1 + n) = ((n - 1 : Nat) : Int) := by omega
  have h1 : (((0 : Nat) : Int) + -1 + n) % n = ((n - 1 : Nat) : Int) := by
    rw [h0]
    exact Int.emod_eq_of_lt (by omega) (by omega)
  rw [h1]
  rfl

theorem wrapPosition_there_and_back (p n : Nat) (h : p < n) :
    wrapPosition (wrapPosition p 1 n) (-1) n = p := by
  by_cases hp : p + 1 < n
  · rw [wrapPosition_succ p n hp, wrapPosition_pred (p + 1) n (by omega) hp]
    rfl
  · have hpn : p = n - 1 := by omega
    rw [hpn, wrapPosition_last n (by omega), wrapPosition_first n (by omega)]

/-! ## Position of the current item after a step -/

theorem WellFormed.position_after_open {s : State} (wf : WellFormed s) {n : Nat}
    {entry : Item} (he : (operatingSet s)[n]? = some entry) :
    positionInSet (openLightbox entry.i s).state = some n := by
  have hmem : entry ∈ operatingSet s := List.getElem?_mem he
  have hat := wf.entry_at_i hmem
  obtain ⟨hn, hget⟩ := List.getElem?_eq_some.mp he
  unfold positionInSet currentItem
  rw [openLightbox_operatingSet, openLightbox_items, openLightbox_currentIndex, hat]
  simp only [hmem, if_true, Option.some.injEq]
  rw [← hget]
  exact List.indexOf_getElem wf.operatingSet_nodup n hn

theorem WellFormed.open_entry_ok {s : State} (wf : WellFormed s) {entry : Item}
    (hmem : entry ∈ operatingSet s) :
    (openLightbox entry.i s).threw = false ∧
    (openLightbox entry.i s).state.lightboxOpen = true := by
  rw [openLightbox_valid entry.i s entry (wf.entry_at_i hmem)]
  exact ⟨rfl, rfl⟩

theorem positionInSet_some {s : State} {p : Nat} (h : positionInSet s = some p) :
    ∃ c, s.items[s.currentIndex]? = some c ∧ (operatingSet s)[p]? = some c := by
  unfold positionInSet currentItem at h
  cases hc : s.items[s.currentIndex]? with
  | none => simp [hc] at h
  | some c =>
    simp only [hc] at h
    by_cases hm : c ∈ operatingSet s
    · simp only [hm, if_true, Option.some.injEq] at h
      subst h
      exact ⟨c, rfl, List.getElem?_indexOf hm⟩
    · simp [hm] at h

theorem move_items (delta : Int) (s : State) : (move delta s).state.items = s.items := by
  unfold move
  simp only
  repeat' split
  all_goals first | rfl | exact openLightbox_items _ _

theorem reachable_items_eq {toLowerCase : String → String} {thumbs : List Img}
    {s : State} (hr : Reachable toLowerCase thumbs s) :
    s.items = mkItemsFrom 0 thumbs := by
  induction hr with
  | scan => rfl
  | applyQuery value _ ih => exact ih
  | applySize px _ ih => exact ih
  | openLightbox i _ hi ih => rw [openLightbox_items]; exact ih
  | closeLightbox _ ih =>
    unfold closeLightbox
    rw [stopAutoplay_eq]
    exact ih
  | move delta _ hd ih => rw [move_items]; exact ih
  | startAutoplay _ ih =>
    show (stopAutoplay _).items = _
    rw [stopAutoplay_eq]
    exact ih
  | stopAutoplay _ ih =>
    rw [stopAutoplay_eq]
    exact ih

/-! ## The event listeners stay within the reachable states -/

theorem reachable_onKeydown {toLowerCase : String → String} {thumbs : List Img}
    {s : State} (hr : Reachable toLowerCase thumbs s) (key : String) :
    Reachable toLowerCase thumbs (onKeydown key s).state := by
  unfold onKeydown
  by_cases ho : s.lightboxOpen = true
  · have h1 : Reachable toLowerCase thumbs
        (if key = "Escape" then closeLightbox s else s) := by
      split
      · exact Reachable.closeLightbox hr
      · exact hr
    have h2 : Reachable toLowerCase thumbs
        (if key = "ArrowRight" then next (if key = "Escape" then closeLightbox s else s)
          else ⟨if key = "Escape" then closeLightbox s else s, false⟩).state := by
      split
      · exact Reachable.move 1 h1 (Or.inl rfl)
      · exact h1
    simp only [ho, Bool.not_true, Bool.false_eq_true, if_false]
    generalize (if key = "Escape" then closeLightbox s else s) = s1 at h1 h2 ⊢
    generalize (if key = "ArrowRight" then next s1 else ⟨s1, false⟩) = o2 at h2 ⊢
    by_cases ht : o2.threw = true
    · rw [if_pos ht]
      exact h2
    · rw [if_neg ht]
      by_cases hk : key = "ArrowLeft"
      · rw [if_pos hk]
        exact Reachable.move (-1) h2 (Or.inr rfl)
      · rw [if_neg hk]
        exact h2
  · simp only [Bool.not_eq_true] at ho
    simp [ho, hr]

theorem reachable_onAutoplayChange {toLowerCase : String → String} {thumbs : List Img}
    {s : State} (hr : Reachable toLowerCase thumbs s) (checked : Bool) :
    Reachable toLowerCase thumbs (onAutoplayChange checked s) := by
  unfold onAutoplayChange
  split
  · exact Reachable.startAutoplay hr
  · exact Reachable.stopAutoplay hr

theorem reachable_onDOMContentLoaded (toLowerCase : String → String) (thumbs : List Img)
    (px : Int) (checked : Bool) :
    Reachable toLowerCase thumbs (onDOMContentLoaded px checked (initialState thumbs)) := by
  unfold onDOMContentLoaded
  simp only
  split
  · exact Reachable.startAutoplay (Reachable.applySize px Reachable.scan)
  · exact Reachable.applySize px Reachable.scan

/-! ## The search handler -/

/-- Claim C1. After the search handler has run on the value `value`, with
`q = trim (toLowerCase value)`: the item index is untouched; the filtered view
is the item index filtered, in order, by the handler's predicate; that predicate
holds of an item exactly when its lowercased caption contains `q` as a
substring or its tags, joined by one space and lowercased, do; and the empty
query (lower-casing the empty string gives the empty string) yields the full
item index. -/
theorem applyQuery_filtered_view (toLowerCase : String → String) (value : String)
    (s : State) :
    (applyQuery toLowerCase value s).items = s.items ∧
    (applyQuery toLowerCase value s).filtered =
      s.items.filter (matchesQuery toLowerCase (trim (toLowerCase value))) ∧
    (applyQuery toLowerCase value s).filtered.Sublist s.items ∧
    (∀ x, matchesQuery toLowerCase (trim (toLowerCase value)) x = true ↔
      SpecMatches toLowerCase (trim (toLowerCase value)) x) ∧
    (∀ x, x ∈ (applyQuery toLowerCase value s).filtered ↔
      x ∈ s.items ∧ SpecMatches toLowerCase (trim (toLowerCase value)) x) ∧
    (toLowerCase "" = "" → (applyQuery toLowerCase "" s).filtered = s.items) := by
  refine ⟨rfl, rfl, List.filter_sublist _, fun x => matchesQuery_iff _ _ x, ?_, ?_⟩
  · intro x
    simp [applyQuery, renderFilter, List.mem_filter, matchesQuery_iff]
  · intro h
    simp only [applyQuery, renderFilter, h, trim_empty]
    exact List.filter_eq_self.mpr fun x _ => matchesQuery_empty toLowerCase x

/-- Witness for C1 on the Desert page: ASCII lower-casing fixes the empty
string, and the empty query shows every item. -/
theorem applyQuery_filtered_view_witness :
    asciiLower "" = "" ∧
    (applyQuery asciiLower "" desertFiltered).filtered = desertFiltered.items :=
  ⟨by decide,
   (applyQuery_filtered_view asciiLower "" desertFiltered).2.2.2.2.2 (by decide)⟩

/-! ## Navigation -/

/-- Claim C2. In every state whose operating set has size `n > 0` (lightbox open
or not), `move(delta)` with `delta` one of `+1`, `-1` sets `currentIndex` to the
field `i` of the operating-set entry at position `(p + delta + n) mod n`, where
`p` is the position of the current item in the operating set, or `0` when it is
not a member; in a reachable state that entry sits at index `i` of the item
index and the call does not throw.  On the Desert page with query "desert" the
filtered view is items 0 and 2, and opening item 0 and moving by `+1` gives
`currentIndex = 2`. -/
theorem move_sets_currentIndex :
    (∀ (s : State) (delta : Int), delta = 1 ∨ delta = -1 →
      0 < (operatingSet s).length →
      ∃ entry,
        (operatingSet s)[wrapPosition ((positionInSet s).getD 0) delta
          (operatingSet s).length]? = some entry ∧
        (move delta s).state.currentIndex = entry.i ∧
        ∀ (toLowerCase : String → String) (thumbs : List Img),
          Reachable toLowerCase thumbs s →
          s.items[entry.i]? = some entry ∧ (move delta s).threw = false) ∧
    desertFiltered.filtered.map Item.i = [0, 2] ∧
    (move 1 (openLightbox 0 desertFiltered).state).state.currentIndex = 2 := by
  refine ⟨?_, by decide, by decide⟩
  intro s delta hd hn
  obtain ⟨entry, he, hm⟩ := move_eq_open s delta hd hn
  refine ⟨entry, he, ?_, ?_⟩
  · rw [hm, openLightbox_currentIndex]
  · intro toLowerCase thumbs hr
    have hmem : entry ∈ operatingSet s := List.getElem?_mem he
    rw [hm]
    exact ⟨hr.wellFormed.entry_at_i hmem, (hr.wellFormed.open_entry_ok hmem).1⟩

/-- Witness for C2: the Desert page, query "desert", item 0 open, `delta = +1`. -/
theorem move_sets_currentIndex_witness :
    ((1 : Int) = 1 ∨ (1 : Int) = -1) ∧ 0 < (operatingSet desertOpened).length ∧
    ∃ entry,
      (operatingSet desertOpened)[wrapPosition ((positionInSet desertOpened).getD 0) 1
        (operatingSet desertOpened).length]? = some entry ∧
      (move 1 desertOpened).state.currentIndex = entry.i ∧
      ∀ (toLowerCase : String → String) (thumbs : List Img),
        Reachable toLowerCase thumbs desertOpened →
        desertOpened.items[entry.i]? = some entry ∧ (move 1 desertOpened).threw = false :=
  ⟨Or.inl rfl, by decide,
   move_sets_currentIndex.1 desertOpened 1 (Or.inl rfl) (by decide)⟩

/-- Claim C3. In every reachable state whose operating set has size `n ≥ 1`: if
the current item is at the last position `n - 1` of the operating set, then
after `next()` the operating set is the same and the current item is at
position `0`; if it is at position `0`, then after `prev()` the operating set
is the same and the current item is at position `n - 1`. -/
theorem move_wraps (toLowerCase : String → String) (thumbs : List Img) (s : State)
    (hr : Reachable toLowerCase thumbs s) (hn : 1 ≤ (operatingSet s).length) :
    (positionInSet s = some ((operatingSet s).length - 1) →
      operatingSet (next s).state = operatingSet s ∧
      positionInSet (next s).state = some 0) ∧
    (positionInSet s = some 0 →
      operatingSet (prev s).state = operatingSet s ∧
      positionInSet (prev s).state = some ((operatingSet s).length - 1)) := by
  have wf := hr.wellFormed
  constructor
  · intro hp
    obtain ⟨entry, he, hm⟩ := move_eq_open s 1 (Or.inl rfl) hn
    rw [hp, Option.getD_some, wrapPosition_last _ hn] at he
    unfold next
    rw [hm]
    exact ⟨openLightbox_operatingSet _ _, wf.position_after_open he⟩
  · intro hp
    obtain ⟨entry, he, hm⟩ := move_eq_open s (-1) (Or.inr rfl) hn
    rw [hp, Option.getD_some, wrapPosition_first _ hn] at he
    unfold prev
    rw [hm]
    exact ⟨openLightbox_operatingSet _ _, wf.position_after_open he⟩

/-- Witness for C3: on the Desert page with all three items shown and item 0
open, `prev()` lands on the last position. -/
theorem move_wraps_witness :
    Reachable asciiLower desertPage desertIndexed ∧
    1 ≤ (operatingSet desertIndexed).length ∧
    positionInSet desertIndexed = some 0 ∧
    positionInSet (prev desertIndexed).state = some 2 :=
  ⟨Reachable.scan, by decide, by decide,
   ((move_wraps asciiLower desertPage desertIndexed Reachable.scan (by decide)).2
      (by decide)).2⟩

/-- Counterexample to C4 as stated: on the Desert page, open item 1 (Ocean)
and then type "desert".  The lightbox is open on item 1; `next()` followed by
`prev()` changes neither the item index nor the filtered view, yet ends on
item 0. -/
theorem next_prev_changes_currentIndex :
    Reachable asciiLower desertPage desertOceanOpen ∧
    desertOceanOpen.lightboxOpen = true ∧
    desertOceanOpen.currentIndex = 1 ∧
    (next desertOceanOpen).state.items = desertOceanOpen.items ∧
    (next desertOceanOpen).state.filtered = desertOceanOpen.filtered ∧
    (prev (next desertOceanOpen).state).state.currentIndex = 0 ∧
    (prev (next desertOceanOpen).state).state.currentIndex ≠ desertOceanOpen.currentIndex :=
  ⟨Reachable.applyQuery "desert" (Reachable.openLightbox 1 Reachable.scan (by decide)),
   by decide, by decide, by decide, by decide, by decide, by decide⟩

/-- Claim C4, amended. In every reachable state whose current item is a member
of the operating set, `next()` followed by `prev()` returns `currentIndex` to
the value it had before the first call. -/
theorem next_prev_restores_currentIndex (toLowerCase : String → String)
    (thumbs : List Img) (s : State) (hr : Reachable toLowerCase thumbs s)
    (hp : (positionInSet s).isSome = true) :
    (prev (next s).state).state.currentIndex = s.currentIndex := by
  have wf := hr.wellFormed
  obtain ⟨p, hp⟩ := Option.isSome_iff_exists.mp hp
  obtain ⟨c, hc, hpc⟩ := positionInSet_some hp
  have hpn : p < (operatingSet s).length := (List.getElem?_eq_some.mp hpc).1
  have hn : 0 < (operatingSet s).length := by omega
  obtain ⟨e1, he1, hm1⟩ := move_eq_open s 1 (Or.inl rfl) hn
  rw [hp, Option.getD_some] at he1
  have hpos1 := wf.position_after_open he1
  have hset1 : operatingSet (openLightbox e1.i s).state = operatingSet s :=
    openLightbox_operatingSet _ _
  have hn1 : 0 < (operatingSet (openLightbox e1.i s).state).length := by
    rw [hset1]
    exact hn
  obtain ⟨e2, he2, hm2⟩ := move_eq_open (openLightbox e1.i s).state (-1) (Or.inr rfl) hn1
  rw [hpos1, Option.getD_some, hset1, wrapPosition_there_and_back p _ hpn, hpc] at he2
  unfold next prev
  rw [hm1, hm2, openLightbox_currentIndex]
  have : e2 = c := (Option.some.inj he2).symm
  rw [this]
  exact wf.indexed _ _ hc

/-- Witness for C4 (amended): the Desert page, query "desert", item 0 open. -/
theorem next_prev_restores_currentIndex_witness :
    Reachable asciiLower desertPage desertOpened ∧
    (positionInSet desertOpened).isSome = true ∧
    (prev (next desertOpened).state).state.currentIndex = desertOpened.currentIndex :=
  ⟨Reachable.openLightbox 0 (Reachable.applyQuery "desert" Reachable.scan) (by decide),
   by decide,
   next_prev_restores_currentIndex asciiLower desertPage desertOpened
     (Reachable.openLightbox 0 (Reachable.applyQuery "desert" Reachable.scan) (by decide))
     (by decide)⟩

/-! ## Navigation while the lightbox is closed -/

/-- Counterexample to C5 as stated: on the Desert page the slideshow is switched
on while the lightbox is closed.  The timer is live; its tick `next()` opens
the lightbox and moves `currentIndex` from 0 to 1 and the caption to "Ocean". -/
theorem next_opens_closed_lightbox :
    Reachable asciiLower desertPage desertAutoplay ∧
    desertAutoplay.lightboxOpen = false ∧
    desertAutoplay.liveTimers ≠ [] ∧
    desertAutoplay.currentIndex = 0 ∧
    (next desertAutoplay).state.lightboxOpen = true ∧
    (next desertAutoplay).state.currentIndex = 1 ∧
    (next desertAutoplay).state.captionText = "Ocean" ∧
    next desertAutoplay ≠ ⟨desertAutoplay, false⟩ :=
  ⟨Reachable.startAutoplay Reachable.scan,
   by decide, by decide, by decide, by decide, by decide, by decide, by decide⟩

/-- Claim C5, amended. In every reachable state with the lightbox closed: a key
press handled by the global key listener (ArrowRight, ArrowLeft, Escape or any
other key) changes nothing; `move(delta)` called directly changes nothing when
the operating set is empty; and `move(±1)` called directly on a non-empty
operating set, as the autoplay timer does, opens the lightbox, without
throwing, on the item given by the navigation rule: the operating-set entry at
position `(p + delta + n) mod n`, with `p` the position of the current item in
the operating set or `0` when it is not a member.  That entry sits at index `i`
of the item index, `currentIndex` becomes that `i`, the image and the caption
become those of the entry, and nothing else changes. -/
theorem closed_lightbox_navigation (toLowerCase : String → String) (thumbs : List Img)
    (s : State) (hr : Reachable toLowerCase thumbs s) (hc : s.lightboxOpen = false) :
    (∀ key : String, onKeydown key s = ⟨s, false⟩) ∧
    (∀ delta : Int, (operatingSet s).length = 0 → move delta s = ⟨s, false⟩) ∧
    (∀ delta : Int, delta = 1 ∨ delta = -1 → 0 < (operatingSet s).length →
      (move delta s).threw = false ∧ (move delta s).state.lightboxOpen = true ∧
      ∃ entry,
        (operatingSet s)[wrapPosition ((positionInSet s).getD 0) delta
          (operatingSet s).length]? = some entry ∧
        s.items[entry.i]? = some entry ∧
        (move delta s).state.currentIndex = entry.i ∧
        (move delta s).state.lbImgSrc = entry.src ∧
        (move delta s).state.lbImgAlt = entry.alt ∧
        (move delta s).state.captionText = (if entry.alt = "" then "Photo" else entry.alt) ∧
        move delta s =
          ⟨{ s with currentIndex := entry.i, lbImgSrc := entry.src, lbImgAlt := entry.alt,
                    captionText := if entry.alt = "" then "Photo" else entry.alt,
                    lightboxOpen := true }, false⟩) := by
  refine ⟨?_, fun delta hn => move_empty s delta hn, ?_⟩
  · intro key
    simp [onKeydown, hc]
  · intro delta hd hn
    obtain ⟨entry, he, hm⟩ := move_eq_open s delta hd hn
    have hat := hr.wellFormed.entry_at_i (List.getElem?_mem he)
    have hv := openLightbox_valid entry.i s entry hat
    rw [hm, hv]
    exact ⟨rfl, rfl, entry, he, hat, rfl, rfl, rfl, rfl, rfl⟩

/-- Witness for C5 (amended): the Desert page right after indexing; a key
press changes nothing, and a direct `move(+1)` opens the lightbox on the entry
the navigation rule names. -/
theorem closed_lightbox_navigation_witness :
    Reachable asciiLower desertPage desertIndexed ∧
    desertIndexed.lightboxOpen = false ∧
    onKeydown "ArrowRight" desertIndexed = ⟨desertIndexed, false⟩ ∧
    ((1 : Int) = 1 ∨ (1 : Int) = -1) ∧
    0 < (operatingSet desertIndexed).length ∧
    ∃ entry,
      (operatingSet desertIndexed)[wrapPosition ((positionInSet desertIndexed).getD 0) 1
        (operatingSet desertIndexed).length]? = some entry ∧
      (move 1 desertIndexed).state.currentIndex = entry.i ∧
      (move 1 desertIndexed).state.captionText =
        (if entry.alt = "" then "Photo" else entry.alt) :=
  ⟨Reachable.scan, by decide,
   (closed_lightbox_navigation asciiLower desertPage desertIndexed Reachable.scan
      (by decide)).1 "ArrowRight",
   Or.inl rfl, by decide,
   match ((closed_lightbox_navigation asciiLower desertPage desertIndexed Reachable.scan
      (by decide)).2.2 1 (Or.inl rfl) (by decide)).2.2 with
   | ⟨entry, he, _, hci, _, _, hcap, _⟩ => ⟨entry, he, hci, hcap⟩⟩

/-! ## Autoplay -/

/-- Claim C6, the code at the failing input. After `startAutoplay()` the flag
`state.autoplay` is `false` while `state.autoplayTimer` holds a handle, in
every state, and the label, when the page has one, reads "Slideshow: Off";
in particular from the initial state.  `stopAutoplay()` and `closeLightbox()` leave the flag
`false` and the handle `null`. -/
theorem startAutoplay_leaves_flag_false :
    (∀ s : State, (startAutoplay s).autoplay = false ∧
      (startAutoplay s).autoplayTimer ≠ none ∧
      (startAutoplay s).autoplayLabel = s.autoplayLabel.map fun _ => "Slideshow: Off") ∧
    (startAutoplay (initialState [])).autoplay = false ∧
    (startAutoplay (initialState [])).autoplayTimer = some ⟨1, Nat.one_pos⟩ ∧
    (∀ s : State, (stopAutoplay s).autoplay = false ∧
      (stopAutoplay s).autoplayTimer = none) ∧
    (∀ s : State, (closeLightbox s).autoplay = false ∧
      (closeLightbox s).autoplayTimer = none) := by
  refine ⟨fun s => ⟨?_, ?_, ?_⟩, by decide, by decide,
    fun s => ⟨stopAutoplay_autoplay s, stopAutoplay_autoplayTimer s⟩,
    fun s => ⟨stopAutoplay_autoplay _, stopAutoplay_autoplayTimer _⟩⟩
  · exact stopAutoplay_autoplay _
  · simp [startAutoplay]
  · show (stopAutoplay _).autoplayLabel = _
    rw [stopAutoplay_eq]
    cases s.autoplayLabel <;> rfl

/-- Claim C7. From every state in which at most one timer is live and it is the
one held in `state.autoplayTimer`, two calls of `startAutoplay()` in succession
leave exactly one live timer, the one held in `state.autoplayTimer`; the timer
created by the first call is a different one and is no longer live. -/
theorem startAutoplay_twice_one_timer (s : State)
    (h : s.liveTimers = [] ∨ ∃ t, s.liveTimers = [t] ∧ s.autoplayTimer = some t) :
    ∃ t1 t2 : TimerId,
      (startAutoplay s).autoplayTimer = some t1 ∧
      (startAutoplay s).liveTimers = [t1] ∧
      (startAutoplay (startAutoplay s)).autoplayTimer = some t2 ∧
      (startAutoplay (startAutoplay s)).liveTimers = [t2] ∧
      t1 ≠ t2 ∧ t1 ∉ (startAutoplay (startAutoplay s)).liveTimers := by
  have hstop : (stopAutoplay { s with
      autoplay := true,
      autoplayLabel := s.autoplayLabel.map fun _ => "Slideshow: On" }).liveTimers = [] := by
    rw [stopAutoplay_eq]
    rcases h with h | ⟨t, h1, h2⟩
    · cases hh : s.autoplayTimer <;> simp [hh, h]
    · simp [h1, h2]
  have h1 : (startAutoplay s).liveTimers =
      [⟨(startAutoplay s).timersCreated, by simp [startAutoplay]⟩] := by
    show (stopAutoplay _).liveTimers ++ [_] = _
    rw [hstop]
    rfl
  have h1t : (startAutoplay s).autoplayTimer =
      some ⟨(startAutoplay s).timersCreated, by simp [startAutoplay]⟩ := rfl
  have hstop2 : (stopAutoplay { startAutoplay s with
      autoplay := true,
      autoplayLabel := (startAutoplay s).autoplayLabel.map fun _ => "Slideshow: On"
      }).liveTimers = [] := by
    rw [stopAutoplay_eq]
    simp [h1, h1t]
  have hc2 : (startAutoplay (startAutoplay s)).timersCreated =
      (startAutoplay s).timersCreated + 1 := by
    show (stopAutoplay _).timersCreated + 1 = _
    rw [stopAutoplay_eq]
  have h2 : (startAutoplay (startAutoplay s)).liveTimers =
      [⟨(startAutoplay (startAutoplay s)).timersCreated, by simp [startAutoplay]⟩] := by
    show (stopAutoplay _).liveTimers ++ [_] = _
    rw [hstop2]
    rfl
  have hne : (⟨(startAutoplay s).timersCreated, by simp [startAutoplay]⟩ : TimerId) ≠
      ⟨(startAutoplay (startAutoplay s)).timersCreated, by simp [startAutoplay]⟩ := by
    intro heq
    have := congrArg TimerId.val heq
    simp only at this
    omega
  refine ⟨_, _, h1t, h1, rfl, h2, hne, ?_⟩
  rw [h2]
  simpa using hne

/-- Witness for C7: the initial state of an empty page, where no timer is live. -/
theorem startAutoplay_twice_one_timer_witness :
    (initialState []).liveTimers = [] ∧
    ∃ t1 t2 : TimerId,
      (startAutoplay (initialState [])).autoplayTimer = some t1 ∧
      (startAutoplay (initialState [])).liveTimers = [t1] ∧
      (startAutoplay (startAutoplay (initialState []))).autoplayTimer = some t2 ∧
      (startAutoplay (startAutoplay (initialState []))).liveTimers = [t2] ∧
      t1 ≠ t2 ∧ t1 ∉ (startAutoplay (startAutoplay (initialState []))).liveTimers :=
  ⟨rfl, startAutoplay_twice_one_timer (initialState []) (Or.inl rfl)⟩

/-- Claim C8. From every reachable state, autoplay running or not, and for every
valid item index `i`: `openLightbox(i)` does not throw, and `closeLightbox()`
right after it leaves the lightbox closed, `state.autoplay = false`,
`state.autoplayTimer = null` and no timer live. -/
theorem open_then_close_stops_autoplay (toLowerCase : String → String)
    (thumbs : List Img) (s : State) (hr : Reachable toLowerCase thumbs s) (i : Nat)
    (hi : i < s.items.length) :
    (openLightbox i s).threw = false ∧
    (closeLightbox (openLightbox i s).state).lightboxOpen = false ∧
    (closeLightbox (openLightbox i s).state).autoplay = false ∧
    (closeLightbox (openLightbox i s).state).autoplayTimer = none ∧
    (closeLightbox (openLightbox i s).state).liveTimers = [] := by
  have wf := wellFormed_closeLightbox (wellFormed_openLightbox i hr.wellFormed hi)
  have ht := wf.timers
  rw [show (closeLightbox (openLightbox i s).state).autoplayTimer = none from
    stopAutoplay_autoplayTimer _] at ht
  refine ⟨?_, ?_, stopAutoplay_autoplay _, stopAutoplay_autoplayTimer _, ht⟩
  · rw [openLightbox_valid i s _ (List.getElem?_eq_getElem hi)]
  · unfold closeLightbox
    rw [stopAutoplay_eq]

/-- Witness for C8: the Desert page with the slideshow running, item 2. -/
theorem open_then_close_stops_autoplay_witness :
    Reachable asciiLower desertPage desertAutoplay ∧
    2 < desertAutoplay.items.length ∧
    desertAutoplay.liveTimers ≠ [] ∧
    (closeLightbox (openLightbox 2 desertAutoplay).state).autoplay = false ∧
    (closeLightbox (openLightbox 2 desertAutoplay).state).liveTimers = [] :=
  ⟨Reachable.startAutoplay Reachable.scan, by decide, by decide,
   (open_then_close_stops_autoplay asciiLower desertPage desertAutoplay
      (Reachable.startAutoplay Reachable.scan) 2 (by decide)).2.2.1,
   (open_then_close_stops_autoplay asciiLower desertPage desertAutoplay
      (Reachable.startAutoplay Reachable.scan) 2 (by decide)).2.2.2.2⟩

/-! ## The current index -/

/-- Counterexample to C9 as stated: on a page without images the state right
after `indexItemsFromDOM` has `currentIndex = 0` and an empty item index, so
`currentIndex` is not a valid index. -/
theorem currentIndex_out_of_range_on_empty_page :
    Reachable asciiLower [] emptyIndexed ∧
    emptyIndexed.items.length = 0 ∧
    emptyIndexed.currentIndex = 0 ∧
    ¬ emptyIndexed.currentIndex < emptyIndexed.items.length :=
  ⟨Reachable.scan, by decide, by decide, by decide⟩

/-- Claim C9, amended. In every reachable state with a non-empty item index,
`state.currentIndex` is a valid index into `state.items`, whether or not that
item is in the filtered view; with an empty item index `currentIndex` is 0. -/
theorem currentIndex_valid (toLowerCase : String → String) (thumbs : List Img)
    (s : State) (hr : Reachable toLowerCase thumbs s) :
    (s.items ≠ [] → s.currentIndex < s.items.length) ∧
    (s.items = [] → s.currentIndex = 0) := by
  rcases hr.wellFormed.current with h | ⟨h1, h2⟩
  · refine ⟨fun _ => h, fun h0 => ?_⟩
    rw [h0] at h
    exact absurd h (Nat.not_lt_zero _)
  · exact ⟨fun hne => absurd h1 hne, fun _ => h2⟩

/-- Witness for C9 (amended): item 1 open on the Desert page while the query
"desert" hides it. -/
theorem currentIndex_valid_witness :
    Reachable asciiLower desertPage desertOceanOpen ∧
    desertOceanOpen.items ≠ [] ∧
    desertOceanOpen.currentIndex < desertOceanOpen.items.length :=
  ⟨Reachable.applyQuery "desert" (Reachable.openLightbox 1 Reachable.scan (by decide)),
   by decide,
   (currentIndex_valid asciiLower desertPage desertOceanOpen
      (Reachable.applyQuery "desert" (Reachable.openLightbox 1 Reachable.scan (by decide)))).1
      (by decide)⟩

/-! ## The page without images -/

/-- Counterexample to C10 as stated: on a page without images `startAutoplay()`
is not a no-op: it stores a timer handle in `state.autoplayTimer` and leaves a
timer live. -/
theorem startAutoplay_changes_empty_page :
    Reachable asciiLower [] emptyIndexed ∧
    emptyIndexed.items = [] ∧
    emptyIndexed.autoplayTimer = none ∧
    emptyIndexed.liveTimers = [] ∧
    (startAutoplay emptyIndexed).autoplayTimer = some ⟨1, Nat.one_pos⟩ ∧
    (startAutoplay emptyIndexed).liveTimers = [⟨1, Nat.one_pos⟩] ∧
    startAutoplay emptyIndexed ≠ emptyIndexed :=
  ⟨Reachable.scan, by decide, by decide, by decide, by decide, by decide, by decide⟩

/-- Claim C10, amended. In every reachable state of a page without images: the
search handler, for every value, and `move(+1)`, `move(-1)` return without
throwing and leave the whole state unchanged; `startAutoplay()` leaves `items`,
`filtered`, `currentIndex` and the open status of the lightbox unchanged and
installs one live timer, held in `state.autoplayTimer`, whose tick `next()`
returns without throwing and changes nothing. -/
theorem empty_page_operations (toLowerCase : String → String) (s : State)
    (hr : Reachable toLowerCase [] s) :
    (∀ value : String, applyQuery toLowerCase value s = s) ∧
    move 1 s = ⟨s, false⟩ ∧
    move (-1) s = ⟨s, false⟩ ∧
    (startAutoplay s).items = s.items ∧
    (startAutoplay s).filtered = s.filtered ∧
    (startAutoplay s).currentIndex = s.currentIndex ∧
    (startAutoplay s).lightboxOpen = s.lightboxOpen ∧
    (∃ t, (startAutoplay s).autoplayTimer = some t ∧ (startAutoplay s).liveTimers = [t]) ∧
    next (startAutoplay s) = ⟨startAutoplay s, false⟩ := by
  have wf := hr.wellFormed
  have hitems : s.items = [] := reachable_items_eq hr
  have hfil : s.filtered = [] := by
    have := wf.filteredSub
    rw [hitems] at this
    exact List.sublist_nil.mp this
  have hhid : s.hidden = [] := by
    have := wf.cards
    rw [hitems] at this
    exact List.length_eq_zero.mp this
  have hset : (operatingSet s).length = 0 := by
    simp [operatingSet, hitems, hfil]
  have wf2 := wellFormed_startAutoplay wf
  have hset2 : (operatingSet (startAutoplay s)).length = 0 := by
    have h1 : (startAutoplay s).items = [] := reachable_items_eq (Reachable.startAutoplay hr)
    have h2 := wf2.filteredSub
    rw [h1] at h2
    simp [operatingSet, h1, List.sublist_nil.mp h2]
  have hstart : ∀ u : State, (startAutoplay u).items = u.items ∧
      (startAutoplay u).filtered = u.filtered ∧
      (startAutoplay u).currentIndex = u.currentIndex ∧
      (startAutoplay u).lightboxOpen = u.lightboxOpen := by
    intro u
    simp only [startAutoplay]
    rw [stopAutoplay_eq]
    exact ⟨rfl, rfl, rfl, rfl⟩
  refine ⟨?_, move_empty s 1 hset, move_empty s (-1) hset, (hstart s).1, (hstart s).2.1,
    (hstart s).2.2.1, (hstart s).2.2.2, ?_, move_empty _ 1 hset2⟩
  · intro value
    obtain ⟨thumbs, items, filtered, ci, ap, apt, size, lbo, src, alt, cap, lab, hid, gm,
      live, tc⟩ := s
    simp only at hitems hfil hhid
    subst hitems hfil hhid
    rfl
  · have ht := wf2.timers
    cases hh : (startAutoplay s).autoplayTimer with
    | none => simp [startAutoplay] at hh
    | some t =>
      rw [hh] at ht
      exact ⟨t, rfl, ht⟩

/-- Witness for C10 (amended): the page without images right after indexing. -/
theorem empty_page_operations_witness :
    Reachable asciiLower [] emptyIndexed ∧
    applyQuery asciiLower "desert" emptyIndexed = emptyIndexed ∧
    move 1 emptyIndexed = ⟨emptyIndexed, false⟩ ∧
    next (startAutoplay emptyIndexed) = ⟨startAutoplay emptyIndexed, false⟩ :=
  ⟨Reachable.scan,
   (empty_page_operations asciiLower emptyIndexed Reachable.scan).1 "desert",
   (empty_page_operations asciiLower emptyIndexed Reachable.scan).2.1,
   (empty_page_operations asciiLower emptyIndexed Reachable.scan).2.2.2.2.2.2.2.2⟩

end ImageGallery
